import Mathlib

/-!
Verification development for the job auto-applier repository.

The repository drives a browser over a job site: it searches listings,
merges them into a URL-keyed catalogue, and runs a bounded multi-step
application flow per job, answering screening questions from a learned
cache with rule-table fallbacks.  The definitions below are a shallow
embedding of that code: pure string/list logic is translated directly,
and the browser page is modelled as an environment supplying, for each
loop iteration, either an observed form screen or a raised error.
-/

set_option autoImplicit false

namespace Jobby

/-! ## String primitives (ASCII model of the JS string operations used) -/

/-- Boolean list prefix test, mirroring the character scan behind
JS `String.prototype.includes` and `startsWith`. -/
def isPrefixB : List Char → List Char → Bool
  | [], _ => true
  | _ :: _, [] => false
  | a :: as, b :: bs => a == b && isPrefixB as bs

/-- Boolean list infix test: `sub` occurs contiguously in `s`. -/
def isInfixB (sub : List Char) : List Char → Bool
  | [] => isPrefixB sub []
  | c :: t => isPrefixB sub (c :: t) || isInfixB sub t

/-- JS `haystack.includes(needle)`. -/
def jsIncludes (haystack needle : String) : Bool :=
  isInfixB needle.data haystack.data

/-- JS `s.startsWith(p)`. -/
def jsStartsWith (s p : String) : Bool :=
  isPrefixB p.data s.data

/-- ASCII lower casing of one character, the fragment of JS
`toLowerCase` exercised by the repository strings. -/
def lowerChar (c : Char) : Char :=
  if 65 ≤ c.toNat && c.toNat ≤ 90 then Char.ofNat (c.toNat + 32) else c

/-- JS `s.toLowerCase()` on ASCII strings. -/
def lowerStr (s : String) : String :=
  ⟨s.data.map lowerChar⟩

/-- ASCII whitespace, the fragment of JS `trim` the repository needs. -/
def isWsChar (c : Char) : Bool :=
  c == ' ' || c == '\t' || c == '\n' || c == '\r'

/-- JS `s.trim()` on ASCII strings. -/
def trimStr (s : String) : String :=
  ⟨((s.data.dropWhile isWsChar).reverse.dropWhile isWsChar).reverse⟩

/-- JS falsy-chain `a || b` on strings: an empty string falls through. -/
def jsOrStr (a b : String) : String :=
  if a == "" then b else a

/-! ## Answer resolution engine (`findAnswer`, `persistAnswer`,
`answerScreeningQuestions` in the seek module) -/

/-- The learned answer store `savedAnswers`: a JS object, i.e. an
insertion-ordered association list with unique keys. -/
abbrev Cache : Type := List (String × String)

/-- The rule table `SCREENING_ANSWERS`, in source (insertion) order. -/
def SCREENING_ANSWERS : List (String × String) :=
  [("right to work", "Yes"),
   ("work in australia", "Yes"),
   ("australian citizen", "Yes"),
   ("visa", "Yes"),
   ("salary", "65000"),
   ("expected salary", "65000"),
   ("salary expectation", "65000"),
   ("years of experience", "2"),
   ("how many years", "2"),
   ("experience", "2"),
   ("notice period", "2 weeks"),
   ("available", "Immediately"),
   ("start date", "Immediately"),
   ("full time", "Yes"),
   ("part time", "Yes")]

/-- The predicate of the two lookup loops in `findAnswer`:
`q.includes(key.toLowerCase())` where `q` is the lowered label. -/
def keyMatches (q : String) (kv : String × String) : Bool :=
  jsIncludes q (lowerStr kv.1)

/-- The option-reconciliation predicate of the rule-table branch:
`o.toLowerCase().includes(val.toLowerCase()) ||
 val.toLowerCase().includes(o.toLowerCase())`. -/
def optionMatches (val o : String) : Bool :=
  jsIncludes (lowerStr o) (lowerStr val) || jsIncludes (lowerStr val) (lowerStr o)

/-- `findAnswer(questionText, options)` reading the mutable store as an
explicit argument: saved answers first (value returned verbatim), then
the rule table (reconciled against the option set, falling back to the
first option, where JS `match || options[0]` also sends an empty-string
match to `options[0]`), then the Yes/No default, else `null`. -/
def findAnswer (saved : Cache) (questionText : String) (options : List String) :
    Option String :=
  match saved.find? (keyMatches (lowerStr questionText)) with
  | some kv => some kv.2
  | none =>
    match SCREENING_ANSWERS.find? (keyMatches (lowerStr questionText)) with
    | some kv =>
      match options with
      | [] => some kv.2
      | o0 :: os =>
        match (o0 :: os).find? (optionMatches kv.2) with
        | some m => some (jsOrStr m o0)
        | none => some o0
    | none =>
      if options.contains "Yes" && options.contains "No" then some "Yes"
      else none

/-- `persistAnswer(question, answer)`: JS object assignment
`savedAnswers[question] = answer` — overwrite the entry when the key
exists, otherwise append it (file write elided; its failure is swallowed
in the source and does not affect the store). -/
def persistAnswer (saved : Cache) (question answer : String) : Cache :=
  if saved.any (fun kv => kv.1 == question) then
    saved.map (fun kv => if kv.1 == question then (question, answer) else kv)
  else saved ++ [(question, answer)]

/-- One extracted screening question, as built by the page scan in
`answerScreeningQuestions`: the label text is already trimmed and
lowered by the extraction, `qtype` and `id` drive only the DOM fill. -/
structure Question where
  label : String
  qtype : String
  id : String
  options : List String
  deriving DecidableEq

/-- The body of the per-question loop in `answerScreeningQuestions`,
restricted to its store effect: skip empty labels, resolve, skip falsy
answers, persist.  The DOM fill that follows the persist only touches
the page, never the store or the control flow. -/
def processQuestion (saved : Cache) (q : Question) : Cache :=
  if q.label == "" then saved
  else
    match findAnswer saved q.label q.options with
    | none => saved
    | some a => if a == "" then saved else persistAnswer saved q.label a

/-- `answerScreeningQuestions`, as a fold of the store through the
extracted question list (later questions see earlier persists, exactly
as with the mutable module-level `savedAnswers`). -/
def answerScreeningQuestions (saved : Cache) (questions : List Question) : Cache :=
  questions.foldl processQuestion saved

/-! ## Job catalogue (`Job`, the merge in `main`, the search dedup key) -/

/-- A catalogue record, as in the seek module. -/
structure Job where
  title : String
  company : String
  location : String
  workType : String
  salary : String
  url : String
  applied : Bool
  appliedAt : Option String
  platform : String
  keyword : String
  deriving DecidableEq

/-- URL absolutization in `searchSeek`:
`j.href.startsWith('http') ? j.href : 'https://www.seek.com.au' + j.href`. -/
def absolutizeUrl (href : String) : String :=
  if jsStartsWith href "http" then href else "https://www.seek.com.au" ++ href

/-- The catalogue merge of `main` (index.ts): build the set of existing
URLs, keep only fresh jobs whose URL is not in it (exact string
membership, as in the JS `Set`), and append them after the existing
records. -/
def mergeJobs (existing fresh : List Job) : List Job :=
  let existingUrls := existing.map Job.url
  let newJobs := fresh.filter (fun j => !(existingUrls.contains j.url))
  existing ++ newJobs

/-! ## Application flow controller (`applyToSeekJob`)

The browser page is modelled as an environment: for each loop iteration
it yields either the form screen the in-page evaluations would observe,
or a raised interaction error (any of the awaited page operations of
that iteration throwing).  Clicking changes the page, so consecutive
iterations simply observe independent screens; quantifying over all
environments covers every possible page behaviour. -/

/-- A raised JS error; only its `message` is consulted by the source. -/
structure JsError where
  message : String
  deriving DecidableEq

/-- Kinds of clickable elements queried by the trigger scans:
`button, [role="button"], input[type="submit"]`. -/
inductive ElemKind where
  | button
  | roleButton
  | submitInput
  deriving DecidableEq

/-- A clickable element as the trigger scans see it: text content,
`value` attribute (used when the text is empty), and whether it carries
the `disabled` attribute. -/
structure Elem where
  kind : ElemKind
  textContent : String
  value : String
  disabled : Bool
  deriving DecidableEq

/-- The matcher of `clickButtonByText`:
`(el.textContent?.trim() || el.value || '').toLowerCase()` equals or
contains one of the searched texts. -/
def buttonTextMatches (texts : List String) (el : Elem) : Bool :=
  let t := lowerStr (jsOrStr (trimStr el.textContent) el.value)
  texts.any (fun s => t == s || jsIncludes t s)

/-- `clickButtonByText`, exposing which element (if any) gets clicked:
the first matching element over all clickables is taken, and it is
clicked only when it does not carry the `disabled` attribute. -/
def clickButtonByTextEl (elems : List Elem) (texts : List String) : Option Elem :=
  match elems.find? (buttonTextMatches texts) with
  | some btn => if btn.disabled then none else some btn
  | none => none

/-- `clickButtonByText` as the source returns it: did a click happen. -/
def clickButtonByText (elems : List Elem) (texts : List String) : Bool :=
  (clickButtonByTextEl elems texts).isSome

/-- The continue phrases of step 4 of the loop. -/
def continueTexts : List String :=
  ["continue", "next", "proceed"]

/-- The submit scan of step 5 of the loop: over `button` elements only,
find the first whose trimmed lowered text contains
`"submit application"` or equals `"submit"`.  No disabled check is
performed before the dispatched click. -/
def findSubmitButton (elems : List Elem) : Option Elem :=
  (elems.filter (fun e => e.kind == ElemKind.button)).find? (fun b =>
    let text := lowerStr (trimStr b.textContent)
    jsIncludes text "submit application" || text == "submit")

/-- Whether the submit evaluation dispatches a click. -/
def submitClick (elems : List Elem) : Bool :=
  (findSubmitButton elems).isSome

/-- The completion phrases of the `isDone` evaluation. -/
def donePhrases : List String :=
  ["application submitted",
   "you\x27ve applied",
   "successfully applied",
   "thank you for applying"]

/-- The `isDone` evaluation: the lowered body text contains one of the
completion phrases. -/
def isDone (bodyText : String) : Bool :=
  let body := lowerStr bodyText
  donePhrases.any (fun p => jsIncludes body p)

/-- The cover-letter-skip phrases. -/
def coverSkipPhrases : List String :=
  ["don\x27t include a cover letter",
   "don\x27t attach",
   "no cover letter",
   "without cover"]

/-- The cover-letter-skip evaluation, reduced to its result: whether
some label/button text contains one of the phrases.  Its click only
mutates the page (the next observed screen), never the control flow. -/
def skipCoverLetter (labelTexts : List String) : Bool :=
  labelTexts.any (fun t =>
    coverSkipPhrases.any (fun p => jsIncludes (lowerStr t) p))

/-- One observed form screen: the page state consulted by one loop
iteration.  `confirmed` is the outcome of the bounded
`waitForFunction` for the confirmation phrases after a submit click
(`true` when a phrase appeared within the timeout). -/
structure StepView where
  bodyText : String
  labelTexts : List String
  questions : List Question
  elems : List Elem
  confirmed : Bool

/-- The environment a run interacts with: the navigation and apply
trigger phase, then one observation (or raised error) per loop
iteration, indexed by the step counter. -/
structure Env where
  gotoResult : Option JsError
  applyButtonVisible : Bool
  applyClickResult : Option JsError
  stepResults : Nat → Except JsError StepView

/-- Observable click/termination events of a run, in order. -/
inductive Event where
  | clickedContinue (step : Nat)
  | clickedSubmit (step : Nat)
  | submitConfirm (step : Nat) (observed : Bool)
  | confirmedDone (step : Nat)
  deriving DecidableEq

/-- The step loop of `applyToSeekJob` (`for step = 1..8`), with the
remaining iteration budget as fuel.  Per iteration, in source order:
completion check, cover-letter skip, screening questions (store
threaded), scroll (page-only, elided), continue-before-submit, submit
with trusted click, else break.  A raised error aborts to the caller
(the surrounding try/catch). -/
def stepLoop (env : Env) : Nat → Nat → Cache → Except JsError Bool × Cache × List Event
  | 0, _, saved => (Except.ok false, saved, [])
  | fuel + 1, step, saved =>
    match env.stepResults step with
    | Except.error e => (Except.error e, saved, [])
    | Except.ok v =>
      if isDone v.bodyText then (Except.ok true, saved, [Event.confirmedDone step])
      else
        let _skippedCL := skipCoverLetter v.labelTexts
        let saved2 := answerScreeningQuestions saved v.questions
        if clickButtonByText v.elems continueTexts then
          let r := stepLoop env fuel (step + 1) saved2
          (r.1, r.2.1, Event.clickedContinue step :: r.2.2)
        else if submitClick v.elems then
          (Except.ok true, saved2,
           [Event.clickedSubmit step, Event.submitConfirm step v.confirmed])
        else (Except.ok false, saved2, [])

/-- The body of `applyToSeekJob` inside the try block: navigate, find
and click the apply trigger (no trigger ⇒ skip with `false`), then run
the loop with its ceiling of 8. -/
def applyBody (env : Env) (saved : Cache) : Except JsError Bool × Cache × List Event :=
  match env.gotoResult with
  | some e => (Except.error e, saved, [])
  | none =>
    if env.applyButtonVisible then
      match env.applyClickResult with
      | some e => (Except.error e, saved, [])
      | none => stepLoop env 8 1 saved
    else (Except.ok false, saved, [])

/-- The classification in the catch block:
`msg.includes('closed') || msg.includes('Target')` selects the
tab-closed log, anything else the generic error log. -/
inductive FailureClass where
  | sessionLost
  | generic
  deriving DecidableEq

/-- Classify a caught error exactly as the catch block does. -/
def classifyError (e : JsError) : FailureClass :=
  if jsIncludes e.message "closed" || jsIncludes e.message "Target" then
    FailureClass.sessionLost
  else FailureClass.generic

/-- The observable outcome of one `applyToSeekJob` run. -/
structure RunResult where
  success : Bool
  saved : Cache
  events : List Event
  failure : Option FailureClass
  deriving DecidableEq

/-- `applyToSeekJob`: the try/catch wrapper.  Every raised error is
caught, classified, and converted to a `false` return; the function is
total, so no exception ever reaches the caller. -/
def applyToSeekJob (env : Env) (saved : Cache) : RunResult :=
  match applyBody env saved with
  | (Except.ok b, c, tr) => ⟨b, c, tr, none⟩
  | (Except.error e, c, tr) => ⟨false, c, tr, some (classifyError e)⟩

/-! ## Helper lemmas -/

/-- A key/value pair just persisted is present in the store. -/
theorem persistAnswer_mem (m : Cache) (k v : String) : (k, v) ∈ persistAnswer m k v := by
  unfold persistAnswer
  split
  · rename_i h
    rw [List.any_eq_true] at h
    obtain ⟨kv, hkv, hek⟩ := h
    rw [List.mem_map]
    refine ⟨kv, hkv, ?_⟩
    rw [if_pos hek]
  · simp

/-- Membership in the merged catalogue: an element is an existing
record, or a fresh job whose URL is genuinely new. -/
theorem mem_mergeJobs (existing fresh : List Job) (x : Job) :
    x ∈ mergeJobs existing fresh ↔
      x ∈ existing ∨ (x ∈ fresh ∧ x.url ∉ existing.map Job.url) := by
  unfold mergeJobs
  simp only [List.mem_append, List.mem_filter, Bool.not_eq_eq_eq_not, Bool.not_true]
  constructor
  · rintro (h | ⟨hf, hc⟩)
    · exact Or.inl h
    · refine Or.inr ⟨hf, fun hm => ?_⟩
      have he : List.elem x.url (existing.map Job.url) = true := List.elem_iff.mpr hm
      have hc2 : List.elem x.url (existing.map Job.url) = false := hc
      rw [he] at hc2
      cases hc2
  · rintro (h | ⟨hf, hc⟩)
    · exact Or.inl h
    · refine Or.inr ⟨hf, ?_⟩
      cases hcon : (existing.map Job.url).contains x.url
      · rfl
      · exact absurd (List.elem_iff.mp hcon) hc

/-! ## Claims about the answer resolution engine -/

/-- C4: a question label matching (case-insensitive substring
containment) both a learned-cache key and a rule-table key resolves to
the learned-cache value, taken verbatim from the first matching stored
entry; the rule table is never consulted. -/
theorem resolver_cache_precedence (saved : Cache) (label : String)
    (options : List String) (kv : String × String)
    (hcache : saved.find? (keyMatches (lowerStr label)) = some kv)
    (hrule : (SCREENING_ANSWERS.find? (keyMatches (lowerStr label))).isSome = true) :
    findAnswer saved label options = some kv.2 := by
  unfold findAnswer
  rw [hcache]

/-- Witness for C4: the label matches the stored key
`right to work` (value `No`) and the rule-table key `right to work`
(default `Yes`); the stored `No` wins even though an option set is
offered. -/
theorem resolver_cache_precedence_witness :
    ([("right to work", "No")] : Cache).find?
        (keyMatches (lowerStr "Right to work in Australia?")) =
      some ("right to work", "No") ∧
    (SCREENING_ANSWERS.find?
        (keyMatches (lowerStr "Right to work in Australia?"))).isSome = true ∧
    findAnswer [("right to work", "No")] "Right to work in Australia?" ["Yes", "No"] =
      some "No" :=
  ⟨by decide, by decide,
    resolver_cache_precedence [("right to work", "No")] "Right to work in Australia?"
      ["Yes", "No"] ("right to work", "No") (by decide) (by decide)⟩

/-- C10: the Yes/No default fires on containment of the exact option
strings `Yes` and `No`, not on the option set having exactly that
shape: with no cache or rule match, any option list containing both
strings resolves to `Yes` rather than to no answer. -/
theorem binary_default_containment (saved : Cache) (label : String)
    (options : List String)
    (hcache : ∀ kv ∈ saved, keyMatches (lowerStr label) kv = false)
    (hrule : ∀ kv ∈ SCREENING_ANSWERS, keyMatches (lowerStr label) kv = false)
    (hyes : options.contains "Yes" = true) (hno : options.contains "No" = true) :
    findAnswer saved label options = some "Yes" := by
  have h1 : saved.find? (keyMatches (lowerStr label)) = none :=
    List.find?_eq_none.mpr (fun x hx => by rw [hcache x hx]; exact Bool.false_ne_true)
  have h2 : SCREENING_ANSWERS.find? (keyMatches (lowerStr label)) = none :=
    List.find?_eq_none.mpr (fun x hx => by rw [hrule x hx]; exact Bool.false_ne_true)
  unfold findAnswer
  rw [h1, h2, hyes, hno]
  rfl

/-- Witness for C10: a label matching nothing, with `Yes` and `No`
buried among other options, still resolves to `Yes`. -/
theorem binary_default_containment_witness :
    (∀ kv ∈ ([] : Cache), keyMatches (lowerStr "favorite color") kv = false) ∧
    (∀ kv ∈ SCREENING_ANSWERS, keyMatches (lowerStr "favorite color") kv = false) ∧
    (["Maybe", "Yes", "No"].contains "Yes" = true) ∧
    (["Maybe", "Yes", "No"].contains "No" = true) ∧
    findAnswer [] "favorite color" ["Maybe", "Yes", "No"] = some "Yes" :=
  ⟨by decide, by decide, by decide, by decide,
    binary_default_containment [] "favorite color" ["Maybe", "Yes", "No"]
      (by decide) (by decide) (by decide) (by decide)⟩

/-- Counterexample to C5 as stated: a question whose extracted label is
empty matches no cache key and no rule key, its option set is exactly
`Yes`/`No`, and the resolver does return `Yes` — but the screening pass
skips empty labels before persisting, so the pair is never written to
the learned cache. -/
theorem binary_default_empty_label_cex :
    (∀ kv ∈ SCREENING_ANSWERS, keyMatches (lowerStr "") kv = false) ∧
    findAnswer [] "" ["Yes", "No"] = some "Yes" ∧
    answerScreeningQuestions [] [⟨"", "select", "q1", ["Yes", "No"]⟩] = [] :=
  ⟨by decide, by decide, by decide⟩

/-- C5 (amended: the question's label must be non-empty, since the
screening pass skips empty labels before persisting): for an option
set of exactly `Yes` and `No` and no cache or rule match, the resolver
returns `Yes`, the screening pass persists exactly that answer, and the
pair is present in the resulting learned cache. -/
theorem binary_default_learned (saved : Cache) (q : Question)
    (hne : q.label ≠ "")
    (hcache : ∀ kv ∈ saved, keyMatches (lowerStr q.label) kv = false)
    (hrule : ∀ kv ∈ SCREENING_ANSWERS, keyMatches (lowerStr q.label) kv = false)
    (hyes : q.options.contains "Yes" = true) (hno : q.options.contains "No" = true)
    (hshape : ∀ o ∈ q.options, o = "Yes" ∨ o = "No") :
    findAnswer saved q.label q.options = some "Yes" ∧
    processQuestion saved q = persistAnswer saved q.label "Yes" ∧
    (q.label, "Yes") ∈ processQuestion saved q := by
  have hfa : findAnswer saved q.label q.options = some "Yes" :=
    binary_default_containment saved q.label q.options hcache hrule hyes hno
  have hlb : (q.label == "") = false := by
    cases hb : q.label == ""
    · rfl
    · exact absurd (eq_of_beq hb) hne
  have hpq : processQuestion saved q = persistAnswer saved q.label "Yes" := by
    unfold processQuestion
    rw [hlb, hfa]
    rfl
  refine ⟨hfa, hpq, ?_⟩
  rw [hpq]
  exact persistAnswer_mem saved q.label "Yes"

/-- Witness for C5 (amended): a fresh non-empty label with options
`Yes`/`No` resolves to `Yes` and lands in the learned cache. -/
theorem binary_default_learned_witness :
    ("favorite color" ≠ "") ∧
    (∀ kv ∈ ([] : Cache), keyMatches (lowerStr "favorite color") kv = false) ∧
    (∀ kv ∈ SCREENING_ANSWERS, keyMatches (lowerStr "favorite color") kv = false) ∧
    (∀ o ∈ (["Yes", "No"] : List String), o = "Yes" ∨ o = "No") ∧
    findAnswer [] "favorite color" ["Yes", "No"] = some "Yes" ∧
    ("favorite color", "Yes") ∈
      processQuestion [] ⟨"favorite color", "select", "q1", ["Yes", "No"]⟩ :=
  ⟨by decide, by decide, by decide, by decide,
    (binary_default_learned [] ⟨"favorite color", "select", "q1", ["Yes", "No"]⟩
      (by decide) (by decide) (by decide) (by decide) (by decide) (by decide)).1,
    (binary_default_learned [] ⟨"favorite color", "select", "q1", ["Yes", "No"]⟩
      (by decide) (by decide) (by decide) (by decide) (by decide) (by decide)).2.2⟩

/-! ## Claims about the job catalogue merge -/

/-- C6: merging a catalogue with freshly found jobs keeps every
existing record unchanged in place (applied state included), drops
every fresh job whose URL already exists, grows the length by exactly
the number of fresh jobs with genuinely new URLs, and (for catalogues
and search results with internally distinct URLs, as the search dedup
produces) leaves no URL twice. -/
theorem merge_catalogue (existing fresh : List Job)
    (hex : (existing.map Job.url).Nodup)
    (hfr : (fresh.map Job.url).Nodup) :
    (mergeJobs existing fresh).take existing.length = existing ∧
    (mergeJobs existing fresh).length =
      existing.length +
        (fresh.filter (fun j => !((existing.map Job.url).contains j.url))).length ∧
    ((mergeJobs existing fresh).map Job.url).Nodup ∧
    (∀ x, x ∈ mergeJobs existing fresh ↔
      (x ∈ existing ∨ (x ∈ fresh ∧ x.url ∉ existing.map Job.url))) := by
  refine ⟨?_, ?_, ?_, fun x => mem_mergeJobs existing fresh x⟩
  · exact List.take_left existing _
  · unfold mergeJobs
    exact List.length_append existing _
  · unfold mergeJobs
    rw [List.map_append, List.nodup_append]
    refine ⟨hex, ?_, ?_⟩
    · exact List.Nodup.sublist
        (List.Sublist.map Job.url (List.filter_sublist fresh)) hfr
    · intro u hu hu2
      rw [List.mem_map] at hu2
      obtain ⟨j, hj, hju⟩ := hu2
      rw [List.mem_filter] at hj
      have hc : List.elem j.url (existing.map Job.url) = false := by
        cases hcon : List.elem j.url (existing.map Job.url)
        · rfl
        · have : (existing.map Job.url).contains j.url = true := hcon
          rw [this] at hj
          exact absurd hj.2 (by decide)
      rw [hju] at hc
      have he : List.elem u (existing.map Job.url) = true := List.elem_iff.mpr hu
      rw [he] at hc
      cases hc

/-- A sample applied catalogue record. -/
def sampleExisting : Job :=
  ⟨"t", "c", "l", "w", "s", "https://www.seek.com.au/job/1", true, some "d",
   "seek", "k"⟩

/-- A fresh search result whose URL duplicates `sampleExisting`. -/
def sampleFreshDup : Job :=
  ⟨"t", "c", "l", "w", "s", "https://www.seek.com.au/job/1", false, none,
   "seek", "k"⟩

/-- A fresh search result with a genuinely new URL. -/
def sampleFreshNew : Job :=
  ⟨"t2", "c2", "l2", "w2", "s2", "https://www.seek.com.au/job/2", false, none,
   "seek", "k"⟩

/-- A fresh search result whose URL differs from `sampleExisting` only
in letter case. -/
def sampleCaseVariant : Job :=
  ⟨"t2", "c2", "l2", "w2", "s2", "https://www.seek.com.au/JOB/1", false, none,
   "seek", "k"⟩

/-- Witness for C6: one existing applied record, one fresh duplicate of
its URL (unapplied) and one fresh new job — the duplicate is dropped,
the record keeps `applied = true`, and no URL repeats. -/
theorem merge_catalogue_witness :
    (([sampleExisting] : List Job).map Job.url).Nodup ∧
    (([sampleFreshDup, sampleFreshNew] : List Job).map Job.url).Nodup ∧
    (mergeJobs [sampleExisting] [sampleFreshDup, sampleFreshNew]).take
        ([sampleExisting] : List Job).length = [sampleExisting] ∧
    ((mergeJobs [sampleExisting] [sampleFreshDup, sampleFreshNew]).map Job.url).Nodup :=
  ⟨by decide, by decide,
    (merge_catalogue [sampleExisting] [sampleFreshDup, sampleFreshNew]
      (by decide) (by decide)).1,
    (merge_catalogue [sampleExisting] [sampleFreshDup, sampleFreshNew]
      (by decide) (by decide)).2.2.1⟩

/-- Counterexample to C7 as stated: the deduplication key is the raw
URL string — two URLs differing only in letter case are treated as two
distinct jobs, so the merged catalogue holds two records whose URLs are
equal after case normalization. -/
theorem url_normalization_cex :
    mergeJobs [sampleExisting] [sampleCaseVariant] =
      [sampleExisting, sampleCaseVariant] ∧
    sampleExisting.url ≠ sampleCaseVariant.url ∧
    lowerStr sampleExisting.url = lowerStr sampleCaseVariant.url :=
  ⟨by decide, by decide, by decide⟩

/-- C7 (amended: the deduplication key is the exact URL string, with no
case or scheme normalization — relative hrefs are merely absolutized by
prefixing the site origin): a fresh job is dropped by the merge exactly
when some existing record has a string-equal URL, so case or scheme
variants of an existing URL are retained as distinct records. -/
theorem merge_dedup_exact_key (existing fresh : List Job) :
    (∀ x, x ∈ mergeJobs existing fresh ↔
      (x ∈ existing ∨ (x ∈ fresh ∧ ∀ e ∈ existing, e.url ≠ x.url))) ∧
    (∀ href, absolutizeUrl href =
      if jsStartsWith href "http" then href else "https://www.seek.com.au" ++ href) := by
  refine ⟨fun x => ?_, fun href => rfl⟩
  rw [mem_mergeJobs existing fresh x]
  constructor
  · rintro (h | ⟨hf, hu⟩)
    · exact Or.inl h
    · refine Or.inr ⟨hf, fun e he hee => ?_⟩
      exact hu (List.mem_map.mpr ⟨e, he, hee⟩)
  · rintro (h | ⟨hf, hu⟩)
    · exact Or.inl h
    · refine Or.inr ⟨hf, fun hm => ?_⟩
      obtain ⟨e, he, hee⟩ := List.mem_map.mp hm
      exact hu e he hee

/-- Witness for C7 (amended): with one existing record, a case variant
of its URL is kept by the merge as a second record. -/
theorem merge_dedup_exact_key_witness :
    sampleCaseVariant ∈ mergeJobs [sampleExisting] [sampleCaseVariant] :=
  ((merge_dedup_exact_key [sampleExisting] [sampleCaseVariant]).1
      sampleCaseVariant).mpr
    (Or.inr ⟨by decide, by decide⟩)

/-! ## Lemmas about the step loop -/

/-- When every reachable iteration observes a screen with no completion
signal and a clickable continue control, the loop runs through its
whole budget clicking continue once per iteration and returns `false`. -/
theorem stepLoop_all_continue (env : Env) (fuel : Nat) :
    ∀ (step : Nat) (saved : Cache),
    (∀ k, step ≤ k → k < step + fuel → ∃ v, env.stepResults k = Except.ok v ∧
        isDone v.bodyText = false ∧ clickButtonByText v.elems continueTexts = true) →
    (stepLoop env fuel step saved).1 = Except.ok false ∧
    (stepLoop env fuel step saved).2.2 =
      (List.range' step fuel).map Event.clickedContinue := by
  induction fuel with
  | zero =>
    intro step saved _h
    exact ⟨rfl, rfl⟩
  | succ n ih =>
    intro step saved h
    obtain ⟨v, hv, hd, hc⟩ := h step (Nat.le_refl step) (by omega)
    have ihres := ih (step + 1) (answerScreeningQuestions saved v.questions)
      (fun k hk1 hk2 => h k (by omega) (by omega))
    constructor
    · simp only [stepLoop, hv, hd, hc]
      simpa using ihres.1
    · simp only [stepLoop, hv, hd, hc]
      rw [List.range'_succ]
      simpa using ihres.2

/-- A submit click recorded in the loop trace happened at an iteration
whose screen lacked the completion signal, offered no clickable
continue control, and did offer a submit button. -/
theorem stepLoop_submit_mem (env : Env) (fuel : Nat) :
    ∀ (step : Nat) (saved : Cache) (k : Nat),
    Event.clickedSubmit k ∈ (stepLoop env fuel step saved).2.2 →
    ∃ v, env.stepResults k = Except.ok v ∧ isDone v.bodyText = false ∧
      clickButtonByText v.elems continueTexts = false ∧ submitClick v.elems = true := by
  induction fuel with
  | zero =>
    intro step saved k h
    simp [stepLoop] at h
  | succ n ih =>
    intro step saved k h
    cases hv : env.stepResults step with
    | error e =>
      simp [stepLoop, hv] at h
    | ok v =>
      simp only [stepLoop, hv] at h
      cases hd : isDone v.bodyText with
      | true =>
        simp [hd] at h
      | false =>
        simp only [hd] at h
        cases hc : clickButtonByText v.elems continueTexts with
        | true =>
          simp only [hc] at h
          simp at h
          exact ih (step + 1) (answerScreeningQuestions saved v.questions) k h
        | false =>
          simp only [hc] at h
          cases hs : submitClick v.elems with
          | true =>
            simp only [hs] at h
            simp at h
            obtain rfl : k = step := h
            exact ⟨v, hv, hd, hc, hs⟩
          | false =>
            simp [hs] at h

/-- Once the loop trace records the post-submit confirmation wait, the
loop result is success, whatever the wait observed. -/
theorem stepLoop_confirm_result (env : Env) (fuel : Nat) :
    ∀ (step : Nat) (saved : Cache) (k : Nat) (b : Bool),
    Event.submitConfirm k b ∈ (stepLoop env fuel step saved).2.2 →
    (stepLoop env fuel step saved).1 = Except.ok true := by
  induction fuel with
  | zero =>
    intro step saved k b h
    simp [stepLoop] at h
  | succ n ih =>
    intro step saved k b h
    cases hv : env.stepResults step with
    | error e =>
      simp [stepLoop, hv] at h
    | ok v =>
      simp only [stepLoop, hv] at h ⊢
      cases hd : isDone v.bodyText with
      | true =>
        simp [hd] at h ⊢
      | false =>
        simp only [hd] at h ⊢
        cases hc : clickButtonByText v.elems continueTexts with
        | true =>
          simp only [hc] at h ⊢
          simp at h ⊢
          exact ih (step + 1) (answerScreeningQuestions saved v.questions) k b h
        | false =>
          simp only [hc] at h ⊢
          cases hs : submitClick v.elems with
          | true =>
            simp [hs]
          | false =>
            simp [hs] at h

/-- The try-block body either runs the loop with ceiling 8, skips with
`false` when no apply trigger is visible, or raises. -/
theorem applyBody_cases (env : Env) (saved : Cache) :
    applyBody env saved = stepLoop env 8 1 saved ∨
    applyBody env saved = (Except.ok false, saved, []) ∨
    ∃ e, applyBody env saved = (Except.error e, saved, []) := by
  unfold applyBody
  cases env.gotoResult with
  | some e => exact Or.inr (Or.inr ⟨e, rfl⟩)
  | none =>
    cases env.applyButtonVisible
    · exact Or.inr (Or.inl rfl)
    · cases env.applyClickResult with
      | some e => exact Or.inr (Or.inr ⟨e, rfl⟩)
      | none => exact Or.inl rfl

/-- The observable run either produced no events (pre-loop exit or
raised navigation error) or exposes the loop trace, with success
exactly when the loop returned `Except.ok true`. -/
theorem applyToSeekJob_events_cases (env : Env) (saved : Cache) :
    (applyToSeekJob env saved).events = [] ∨
    ((applyToSeekJob env saved).events = (stepLoop env 8 1 saved).2.2 ∧
     ((applyToSeekJob env saved).success = true ↔
       (stepLoop env 8 1 saved).1 = Except.ok true)) := by
  rcases applyBody_cases env saved with h | h | ⟨e, h⟩
  · right
    unfold applyToSeekJob
    rw [h]
    rcases hsl : stepLoop env 8 1 saved with ⟨r1, c, tr⟩
    cases r1 with
    | ok b => cases b <;> simp
    | error e2 => simp
  · left
    unfold applyToSeekJob
    rw [h]
  · left
    unfold applyToSeekJob
    rw [h]

/-! ## Claims about the application flow controller -/

/-- C1: if every iteration observes a screen with no completion signal
and a clickable continue control, the controller clicks continue in
each of its 8 iterations (steps 1 through 8, never more) and then
returns failure instead of looping further. -/
theorem step_ceiling (env : Env) (saved : Cache)
    (hg : env.gotoResult = none) (ha : env.applyButtonVisible = true)
    (hk : env.applyClickResult = none)
    (hsteps : ∀ k, 1 ≤ k → k ≤ 8 → ∃ v, env.stepResults k = Except.ok v ∧
        isDone v.bodyText = false ∧ clickButtonByText v.elems continueTexts = true) :
    (applyToSeekJob env saved).success = false ∧
    (applyToSeekJob env saved).events = (List.range' 1 8).map Event.clickedContinue := by
  have hsl := stepLoop_all_continue env 8 1 saved
    (fun k h1 h2 => hsteps k h1 (by omega))
  have hab : applyBody env saved = stepLoop env 8 1 saved := by
    unfold applyBody
    rw [hg, ha, hk]
    rfl
  unfold applyToSeekJob
  rw [hab]
  rcases he : stepLoop env 8 1 saved with ⟨r1, c, tr⟩
  rw [he] at hsl
  have h1 : r1 = Except.ok false := hsl.1
  have h2 : tr = (List.range' 1 8).map Event.clickedContinue := hsl.2
  subst h1
  subst h2
  exact ⟨rfl, rfl⟩

/-- A screen that always offers an enabled continue control and no
completion signal. -/
def contView : StepView :=
  ⟨"step content", [], [], [⟨ElemKind.button, "Continue", "", false⟩], false⟩

/-- An environment whose every iteration observes `contView`. -/
def contEnv : Env :=
  ⟨none, true, none, fun _ => Except.ok contView⟩

/-- Witness for C1: on the always-continue environment the controller
clicks continue at steps 1..8 and returns failure. -/
theorem step_ceiling_witness :
    (∀ k, 1 ≤ k → k ≤ 8 → ∃ v, contEnv.stepResults k = Except.ok v ∧
        isDone v.bodyText = false ∧ clickButtonByText v.elems continueTexts = true) ∧
    (applyToSeekJob contEnv []).success = false ∧
    (applyToSeekJob contEnv []).events = (List.range' 1 8).map Event.clickedContinue :=
  ⟨fun _k _ _ => ⟨contView, rfl, by decide, by decide⟩,
   (step_ceiling contEnv [] rfl rfl rfl
     (fun _k _ _ => ⟨contView, rfl, by decide, by decide⟩)).1,
   (step_ceiling contEnv [] rfl rfl rfl
     (fun _k _ _ => ⟨contView, rfl, by decide, by decide⟩)).2⟩

/-- C2: in any run, an iteration whose observed screen has a clickable
continue control never records a submit click; equivalently, a
recorded submit click proves the continue detection found nothing
clickable on that iteration's screen. -/
theorem continue_before_submit (env : Env) (saved : Cache) (k : Nat) (v : StepView)
    (hk : env.stepResults k = Except.ok v) :
    (clickButtonByText v.elems continueTexts = true →
      Event.clickedSubmit k ∉ (applyToSeekJob env saved).events) ∧
    (Event.clickedSubmit k ∈ (applyToSeekJob env saved).events →
      clickButtonByText v.elems continueTexts = false) := by
  have main : Event.clickedSubmit k ∈ (applyToSeekJob env saved).events →
      clickButtonByText v.elems continueTexts = false := by
    intro hmem
    rcases applyToSeekJob_events_cases env saved with hnil | ⟨hev, _⟩
    · rw [hnil] at hmem
      cases hmem
    · rw [hev] at hmem
      obtain ⟨v2, hv2, _, hc2, _⟩ := stepLoop_submit_mem env 8 1 saved k hmem
      rw [hk] at hv2
      injection hv2 with hveq
      subst hveq
      exact hc2
  refine ⟨fun hc hmem => ?_, main⟩
  rw [main hmem] at hc
  cases hc

/-- A screen offering both an enabled continue and an enabled submit
control. -/
def bothView : StepView :=
  ⟨"form", [], [],
   [⟨ElemKind.button, "Continue", "", false⟩,
    ⟨ElemKind.button, "Submit application", "", false⟩], false⟩

/-- An environment whose every iteration observes `bothView`. -/
def bothEnv : Env :=
  ⟨none, true, none, fun _ => Except.ok bothView⟩

/-- Witness for C2: with both controls present, continue is clickable
and no submit click is ever recorded. -/
theorem continue_before_submit_witness :
    bothEnv.stepResults 1 = Except.ok bothView ∧
    clickButtonByText bothView.elems continueTexts = true ∧
    Event.clickedSubmit 1 ∉ (applyToSeekJob bothEnv []).events :=
  ⟨rfl, by decide,
   (continue_before_submit bothEnv [] 1 bothView rfl).1 (by decide)⟩

/-- C3: once the run records the post-submit confirmation wait — with
either outcome of the bounded wait — the controller returns success;
the click itself is trusted whether or not a completion signal was
observed. -/
theorem submit_click_trusted (env : Env) (saved : Cache) (k : Nat) (b : Bool)
    (h : Event.submitConfirm k b ∈ (applyToSeekJob env saved).events) :
    (applyToSeekJob env saved).success = true := by
  rcases applyToSeekJob_events_cases env saved with hnil | ⟨hev, hiff⟩
  · rw [hnil] at h
    cases h
  · rw [hev] at h
    exact hiff.mpr (stepLoop_confirm_result env 8 1 saved k b h)

/-- A screen offering only an enabled submit control, where the
confirmation wait never observes a completion phrase. -/
def submitView : StepView :=
  ⟨"form", [], [], [⟨ElemKind.button, "Submit application", "", false⟩], false⟩

/-- An environment whose every iteration observes `submitView`. -/
def submitEnv : Env :=
  ⟨none, true, none, fun _ => Except.ok submitView⟩

/-- Witness for C3: the submit click at step 1 with the confirmation
wait timing out (`observed = false`) still yields success. -/
theorem submit_click_trusted_witness :
    Event.submitConfirm 1 false ∈ (applyToSeekJob submitEnv []).events ∧
    (applyToSeekJob submitEnv []).success = true :=
  ⟨by decide, submit_click_trusted submitEnv [] 1 false (by decide)⟩

/-- C8: any error raised inside the try-block body is caught by the
controller, classified as session-lost (message containing `closed` or
`Target`) or generic, and converted into a failure return; the wrapper
is a total function into `RunResult`, so no exception reaches the
caller. -/
theorem error_containment (env : Env) (saved : Cache) (e : JsError) (c : Cache)
    (tr : List Event) (h : applyBody env saved = (Except.error e, c, tr)) :
    (applyToSeekJob env saved).success = false ∧
    (applyToSeekJob env saved).failure = some (classifyError e) ∧
    ((jsIncludes e.message "closed" || jsIncludes e.message "Target") = true →
      classifyError e = FailureClass.sessionLost) ∧
    ((jsIncludes e.message "closed" || jsIncludes e.message "Target") = false →
      classifyError e = FailureClass.generic) := by
  unfold applyToSeekJob
  rw [h]
  exact ⟨rfl, rfl, fun hm => by simp [classifyError, hm],
    fun hm => by simp [classifyError, hm]⟩

/-- An environment whose navigation raises a torn-down-session error. -/
def errEnv : Env :=
  ⟨some ⟨"Target page, context or browser has been closed"⟩, true, none,
   fun _ => Except.ok submitView⟩

/-- Witness for C8: the navigation error is caught, classified as
session-lost, and turned into a failure return. -/
theorem error_containment_witness :
    applyBody errEnv [] =
      (Except.error ⟨"Target page, context or browser has been closed"⟩, [], []) ∧
    (applyToSeekJob errEnv []).success = false ∧
    (applyToSeekJob errEnv []).failure = some FailureClass.sessionLost :=
  ⟨rfl,
   (error_containment errEnv [] ⟨"Target page, context or browser has been closed"⟩
     [] [] rfl).1,
   by
     rw [(error_containment errEnv []
       ⟨"Target page, context or browser has been closed"⟩ [] [] rfl).2.1]
     decide⟩

/-- An enabled-looking scan target: a submit button carrying the
`disabled` attribute. -/
def disabledSubmitElem : Elem :=
  ⟨ElemKind.button, "Submit application", "", true⟩

/-- A screen whose only control is the disabled submit button. -/
def disabledView : StepView :=
  ⟨"form", [], [], [disabledSubmitElem], false⟩

/-- An environment whose every iteration observes `disabledView`. -/
def disabledEnv : Env :=
  ⟨none, true, none, fun _ => Except.ok disabledView⟩

/-- Counterexample to C9 as stated: the submit scan selects a button by
text alone and dispatches the click without a disabled check, so a
page whose only submit button is disabled still gets it clicked (and
the run even reports success). -/
theorem submit_disabled_clicked_cex :
    disabledSubmitElem.disabled = true ∧
    findSubmitButton [disabledSubmitElem] = some disabledSubmitElem ∧
    submitClick [disabledSubmitElem] = true ∧
    Event.clickedSubmit 1 ∈ (applyToSeekJob disabledEnv []).events ∧
    (applyToSeekJob disabledEnv []).success = true :=
  ⟨rfl, by decide, by decide, by decide, by decide⟩

/-- Replacing every element's disabled flag leaves the submit scan's
outcome unchanged: the scan never consults the attribute. -/
theorem submitClick_ignores_disabled (f : Elem → Bool) (elems : List Elem) :
    submitClick (elems.map (fun x => { x with disabled := f x })) =
      submitClick elems := by
  unfold submitClick findSubmitButton
  induction elems with
  | nil => rfl
  | cons a l ih =>
    simp only [List.map_cons, List.filter_cons]
    cases hka : a.kind == ElemKind.button with
    | false =>
      simpa [hka] using ih
    | true =>
      simp only [hka]
      simp only [if_true]
      rw [List.find?_cons, List.find?_cons]
      cases hpa : jsIncludes (lowerStr (trimStr a.textContent)) "submit application" ||
          lowerStr (trimStr a.textContent) == "submit" with
      | false =>
        simpa [hpa] using ih
      | true =>
        simp [hpa]

/-- C9 (amended: only the continue/next/proceed detection excludes
disabled elements — a first text match carrying the `disabled`
attribute is not clicked; the submit detection matches buttons by text
only and dispatches its click regardless of the attribute): the
clicked continue element is never disabled, the submit scan selects by
text alone, and flipping disabled attributes cannot change its
outcome. -/
theorem trigger_disabled_policy :
    (∀ (elems : List Elem) (texts : List String) (e : Elem),
      clickButtonByTextEl elems texts = some e → e.disabled = false) ∧
    (∀ (elems : List Elem) (e : Elem), findSubmitButton elems = some e →
      (jsIncludes (lowerStr (trimStr e.textContent)) "submit application" ||
        lowerStr (trimStr e.textContent) == "submit") = true) ∧
    (∀ (elems : List Elem) (f : Elem → Bool),
      submitClick (elems.map (fun x => { x with disabled := f x })) =
        submitClick elems) := by
  refine ⟨fun elems texts e h => ?_, fun elems e h => ?_,
    fun elems f => submitClick_ignores_disabled f elems⟩
  · unfold clickButtonByTextEl at h
    split at h
    · split at h
      · cases h
      · rename_i hdis
        injection h with he
        subst he
        simpa using hdis
    · cases h
  · unfold findSubmitButton at h
    have h2 := List.find?_some h
    simpa using h2

/-- Witness for C9 (amended): the continue detection clicks the enabled
continue button of `bothView`, and that clicked element is not
disabled. -/
theorem trigger_disabled_policy_witness :
    clickButtonByTextEl bothView.elems continueTexts =
      some ⟨ElemKind.button, "Continue", "", false⟩ ∧
    Elem.disabled ⟨ElemKind.button, "Continue", "", false⟩ = false :=
  ⟨by decide,
   trigger_disabled_policy.1 bothView.elems continueTexts
     ⟨ElemKind.button, "Continue", "", false⟩ (by decide)⟩

end Jobby
